import Mathlib

/-!
Verification of the music-player repository (src/main.py) against its
natural-language specification. The Python source is shallowly embedded:
pure computations become Lean functions, Qt side effects become explicit
action lists, and exceptions become Except values supplied as inputs.
-/

namespace MusicPlayer

/-- One entry of the yt-dlp `formats` list as read by
`YTDLPWorker.best_audio_stream_url`: only the fields the function
inspects. A field absent from the Python dict is `none`. -/
structure Format where
  acodec : Option String := none
  vcodec : Option String := none
  abr : Option ℚ := none
  tbr : Option ℚ := none
  url : Option String := none
deriving DecidableEq

/-- Python `x or 0` on an optional number: a missing value, like the
number 0 itself, yields 0. With default 0 this is `Option.getD 0`. -/
def pyOrQ (x : Option ℚ) : ℚ := x.getD 0

/-- The sort key `lambda f: (f.get("abr") or 0, f.get("tbr") or 0)`. -/
def fmtKey (f : Format) : ℚ × ℚ := (pyOrQ f.abr, pyOrQ f.tbr)

/-- Lexicographic order on the (abr, tbr) key, as Python compares tuples. -/
def keyLeP (a b : ℚ × ℚ) : Prop := a.1 < b.1 ∨ (a.1 = b.1 ∧ a.2 ≤ b.2)

/-- Strict lexicographic comparison used when Python `max` replaces its
current best element. -/
def keyGt (a b : ℚ × ℚ) : Bool :=
  decide (b.1 < a.1) || (decide (a.1 = b.1) && decide (b.2 < a.2))

/-- Filter for the first pass: `f.get("acodec") != "none" and
f.get("vcodec") == "none"` (a missing acodec passes; a missing vcodec
fails). -/
def isAudioOnly (f : Format) : Bool :=
  f.acodec != some "none" && f.vcodec == some "none"

/-- Filter for the fallback pass: `f.get("acodec") != "none"`. -/
def hasAudio (f : Format) : Bool :=
  f.acodec != some "none"

/-- Python `max(iterable, key=...)`: scan left to right, replacing the
current best exactly when the key is strictly greater, so the first
element with the maximal key wins ties. -/
def pyMaxBy (key : Format → ℚ × ℚ) : Format → List Format → Format
  | b, [] => b
  | b, f :: rest => pyMaxBy key (if keyGt (key f) (key b) then f else b) rest

/-- The candidate pool of `best_audio_stream_url`: audio-only formats,
falling back to all formats with an audio codec when none exist. -/
def audioPool (formats : List Format) : List Format :=
  if (formats.filter isAudioOnly).isEmpty then formats.filter hasAudio
  else formats.filter isAudioOnly

/-- `YTDLPWorker.best_audio_stream_url` after extraction produced the
given formats list: pick the pool, return `best.get("url")` of the
Python max, or None when the pool is empty. -/
def best_audio_stream_url (formats : List Format) : Option String :=
  match audioPool formats with
  | [] => none
  | f :: rest => (pyMaxBy fmtKey f rest).url

/-- Python `x or y` on optional byte counts: None and 0 are falsy. -/
def pyOrNat : Option ℕ → ℕ → ℕ
  | none, y => y
  | some 0, y => y
  | some (n + 1), _ => n + 1

/-- The progress hook inside `YTDLPWorker.download`: given the status
string and the optional byte counts of the yt-dlp progress dict, the
emitted percentage, or `none` when nothing is emitted. -/
def hook (status : String) (downloaded_bytes total_bytes total_bytes_estimate : Option ℕ) :
    Option ℚ :=
  if status == "downloading" then
    let p := pyOrNat downloaded_bytes 0
    let t := pyOrNat total_bytes (pyOrNat total_bytes_estimate 0)
    if t ≠ 0 then some ((p : ℚ) * 100 / (t : ℚ)) else none
  else if status == "finished" then some 100
  else none

/-- A user-visible effect performed by `MainWindow` handler code. A
`dialog` is a modal QMessageBox with title and message; `submitTask`
is the executor submission of the worker task; `taskCompleted` marks
the point where the polling loop observes that the future is done. -/
inductive UIAction where
  | dialog (title msg : String)
  | setStatus (s : String)
  | setSource (u : String)
  | play
  | submitTask
  | taskCompleted
  | setEnabled (b : Bool)
  | setProgress (n : ℤ)
deriving DecidableEq

/-- True exactly on modal dialog actions. -/
def isDialog : UIAction → Bool
  | .dialog _ _ => true
  | _ => false

/-- True exactly on executor submissions. -/
def isSubmit : UIAction → Bool
  | .submitTask => true
  | _ => false

/-- The signal emissions of one call to `YTDLPWorker.download`.
`mkdir` is the outcome of `self.download_dir.mkdir(...)`, which the
source runs before entering the try block: when it raises, the
exception propagates and nothing is emitted. `dl` is the outcome of
`ydl.download([url])` inside the try block: return code, or the
message of a raised exception. Each list entry is one `finished`
signal `(success, path_or_error)`. -/
def downloadEmits (download_dir : String) (mkdir : Except String Unit)
    (dl : Except String ℤ) : List (Bool × String) :=
  match mkdir with
  | .error _ => []
  | .ok _ =>
    match dl with
    | .ok r => if r = 0 then [(true, download_dir)] else [(false, "Download failed")]
    | .error e => [(false, e)]

/-- The dict read when yt-dlp post-processes: only the option fields
built by `YTDLPWorker.download`. -/
structure Postprocessor where
  key : String
  preferredcodec : String
  preferredquality : String
deriving DecidableEq

/-- The yt-dlp options dictionary built by `YTDLPWorker.download`. -/
structure DownloadOpts where
  fmtSelector : String
  outtmpl : String
  noprogress : Bool
  quiet : Bool
  nocheckcertificate : Bool
  postprocessors : List Postprocessor
deriving DecidableEq

/-- The options dictionary `opts` of `YTDLPWorker.download` for the
given download directory and requested audio format; `outtmpl` is
`str(self.download_dir / "%(title)s.%(ext)s")`. -/
def download_opts (download_dir : String) (audio_format : String) : DownloadOpts :=
  { fmtSelector := "bestaudio/best"
    outtmpl := download_dir ++ "/" ++ "%(title)s.%(ext)s"
    noprogress := true
    quiet := true
    nocheckcertificate := true
    postprocessors := [{ key := "FFmpegExtractAudio"
                         preferredcodec := audio_format
                         preferredquality := "0" }] }

/-- Python `url.strip()`: drop whitespace from both ends. Written with
structural list recursion so that concrete instances reduce. -/
def pyStrip (s : String) : String :=
  ⟨((s.data.dropWhile Char.isWhitespace).reverse.dropWhile Char.isWhitespace).reverse⟩

/-- Python truthiness of the optional string held in `data`. -/
def pyTruthy : Option String → Bool
  | none => false
  | some s => !(s == "")

/-- Python `data or alt` on an optional string. -/
def pyOrStr (data : Option String) (alt : String) : String :=
  match data with
  | some s => if s == "" then alt else s
  | none => alt

/-- The `done` continuation inside `MainWindow.on_stream`, run once the
future completes with `(ok, data)`. -/
def on_stream_done (ok : Bool) (data : Option String) : List UIAction :=
  UIAction.setEnabled true ::
  (if !ok || !(pyTruthy data) then
    [UIAction.dialog "Stream error" (pyOrStr data "No playable audio format found"),
     UIAction.setStatus "Ready"]
   else
    [UIAction.setSource (data.getD ""), UIAction.play,
     UIAction.setStatus "Streaming from YouTube"])

/-- The `task` closure of `MainWindow.on_stream`: a normal return of
`best_audio_stream_url` becomes `(True, s_url)`, a raised exception
becomes `(False, str(e))`. -/
def stream_task (extract : Except String (Option String)) : Bool × Option String :=
  match extract with
  | .ok u => (true, u)
  | .error e => (false, some e)

/-- `MainWindow.on_stream` as the sequence of UI actions it performs,
with `extract` the outcome of the worker call on the background
thread. -/
def on_stream_flow (url : String) (extract : Except String (Option String)) : List UIAction :=
  if pyStrip url == "" then []
  else
    UIAction.setEnabled false ::
    UIAction.setStatus "Resolving audio stream..." ::
    UIAction.submitTask ::
    UIAction.taskCompleted ::
    on_stream_done (stream_task extract).1 (stream_task extract).2

/-- `MainWindow.on_download_finished`, the slot connected to the worker
finished signal. -/
def on_download_finished (download_dir : String) (success : Bool)
    (path_or_error : String) : List UIAction :=
  UIAction.setEnabled true ::
  (if success then
    [UIAction.setStatus ("Saved to: " ++ download_dir),
     UIAction.dialog "Done" ("Audio saved in: " ++ download_dir)]
   else
    [UIAction.setStatus "Ready",
     UIAction.dialog "Download error" path_or_error])

/-- `MainWindow.on_download` as the sequence of UI actions it performs:
the empty-URL guard, the missing-dependency guard (`depOk` is false
when `YoutubeDL is None`), the synchronous prologue, then after the
future completes the handling of each emitted finished signal and the
re-enable from the polling loop. -/
def on_download_flow (url : String) (depOk : Bool) (download_dir : String)
    (mkdir : Except String Unit) (dl : Except String ℤ) : List UIAction :=
  if pyStrip url == "" then []
  else if !depOk then
    [UIAction.dialog "Missing dependency" "yt-dlp is not installed. Run: pip install yt-dlp"]
  else
    UIAction.setProgress 0 ::
    UIAction.setStatus "Downloading..." ::
    UIAction.setEnabled false ::
    UIAction.submitTask ::
    UIAction.taskCompleted ::
    ((downloadEmits download_dir mkdir dl).flatMap
       (fun sm => on_download_finished download_dir sm.1 sm.2) ++
     [UIAction.setEnabled true])

/-- `MainWindow.on_error`, the slot for `player.errorOccurred`: Python
`if error:` shows a dialog exactly when the error code is nonzero. -/
def on_error (error : ℤ) (error_string : String) : List UIAction :=
  if error ≠ 0 then [UIAction.dialog "Playback error" error_string] else []

/-- The failure outcomes of the stream task: the worker call raised
(this includes the missing-dependency TypeError, since `YoutubeDL` is
None), or it returned no url, or an empty url - the cases the `done`
continuation treats as failed. -/
def streamFailure (extract : Except String (Option String)) : Prop :=
  (∃ e, extract = Except.error e) ∨ extract = Except.ok none ∨
    extract = Except.ok (some "")

/-- The failure outcomes of the yt-dlp download call: any outcome other
than a clean return of 0. -/
def downloadFailure (dl : Except String ℤ) : Prop :=
  dl ≠ Except.ok 0

/-- The observable `MainWindow` state touched by the handlers: status
label text, progress bar value, enabled flag, player source, and the
dialogs shown so far. -/
structure WinState where
  status : String
  progressVal : ℤ
  enabled : Bool
  playerSource : Option String
  dialogs : List (String × String)
deriving DecidableEq

/-- Interpretation of one UI action on the window state. -/
def applyAction (st : WinState) : UIAction → WinState
  | .dialog t m => { st with dialogs := st.dialogs ++ [(t, m)] }
  | .setStatus s => { st with status := s }
  | .setSource u => { st with playerSource := some u }
  | .play => st
  | .submitTask => st
  | .taskCompleted => st
  | .setEnabled b => { st with enabled := b }
  | .setProgress n => { st with progressVal := n }

/-- Interpretation of a handler trace on the window state. -/
def applyActions (st : WinState) (tr : List UIAction) : WinState :=
  tr.foldl applyAction st

/-- The temporal shape required of a handler trace: a single executor
submission, preceded by a disable of the window and by no enable, with
the completion marker immediately after it (the polling loop performs
no UI action before the future is done), and no further submission
afterwards. -/
def noReenableBeforeDone (tr : List UIAction) : Prop :=
  ∃ pre post,
    tr = pre ++ UIAction.submitTask :: UIAction.taskCompleted :: post ∧
    UIAction.setEnabled false ∈ pre ∧
    (∀ a ∈ pre, a ≠ UIAction.setEnabled true ∧ a ≠ UIAction.submitTask) ∧
    (∀ a ∈ post, a ≠ UIAction.submitTask)

/-- Modelled from the spec: the playlist state of the second
application of the repository, which is not present under src (src
holds only main.py); an ordered sequence of file paths or stream URLs
and a current-index pointer into it. -/
structure PlaylistState where
  playlist : List String
  current : ℕ
deriving DecidableEq

/-- Modelled from the spec: the current index stays within the bounds
of the playlist; for the empty playlist it rests at 0. -/
def indexOk (s : PlaylistState) : Prop :=
  s.current < s.playlist.length ∨ (s.playlist = [] ∧ s.current = 0)

/-- Modelled from the spec: the operations of the missing application
that touch the playlist - appending a track and moving the pointer
forward or backward. -/
inductive PlOp where
  | add (track : String)
  | next
  | prev
deriving DecidableEq

/-- Modelled from the spec: each playlist operation bounds-checks the
index before moving it, the only invariant the spec claims. -/
def plStep (s : PlaylistState) : PlOp → PlaylistState
  | .add t => { s with playlist := s.playlist ++ [t] }
  | .next =>
    if s.current + 1 < s.playlist.length then { s with current := s.current + 1 } else s
  | .prev =>
    if 0 < s.current then { s with current := s.current - 1 } else s

/-- Modelled from the spec: the playlist state reached from the empty
initial state by a sequence of operations. -/
def plRun (ops : List PlOp) : PlaylistState :=
  ops.foldl plStep { playlist := [], current := 0 }

/-- The five transport buttons; play, pause and stop exist in
MainWindow, next and prev are the spec-described controls of the
second application. -/
inductive TransportButton where
  | play
  | pause
  | stop
  | next
  | prev
deriving DecidableEq

/-- Playback states of the media player. -/
inductive Playback where
  | playing
  | paused
  | stopped
deriving DecidableEq

/-- Player model: playback state plus the playlist state. -/
structure PlayerModel where
  playback : Playback
  pl : PlaylistState
deriving DecidableEq

/-- The transport wiring: play, pause and stop are connected directly
to the player operations as in `MainWindow.__init__`; next and prev
(modelled from the spec for the second application) move the playlist
pointer. -/
def clickTransport (m : PlayerModel) : TransportButton → PlayerModel
  | .play => { m with playback := .playing }
  | .pause => { m with playback := .paused }
  | .stop => { m with playback := .stopped }
  | .next => { m with pl := plStep m.pl PlOp.next }
  | .prev => { m with pl := plStep m.pl PlOp.prev }

/-- The input surface of the application: a pasted URL string, an
optional download directory choice (None when the QFileDialog is
cancelled, as in `on_pick_dir` where `if path:` guards it), and an
optional local audio file (modelled from the spec; the chooser belongs
to the second application, absent from src). -/
inductive InputEvent where
  | pasteURL (s : String)
  | pickDownloadDir (chosen : Option String)
  | pickLocalFile (chosen : Option String)
deriving DecidableEq

/-- The state the inputs feed. -/
structure AppInput where
  urlText : String
  download_dir : String
  localFile : Option String
deriving DecidableEq

/-- Handling of each input event: the URL line edit holds the pasted
text; `on_pick_dir` updates the directory only when a path was chosen;
the local file choice (modelled from the spec) is kept when made. -/
def handleInput (st : AppInput) : InputEvent → AppInput
  | .pasteURL s => { st with urlText := s }
  | .pickDownloadDir (some d) => { st with download_dir := d }
  | .pickDownloadDir none => st
  | .pickLocalFile (some f) => { st with localFile := some f }
  | .pickLocalFile none => st

/-- A concrete extraction result: one muxed video format and one
audio-only format. -/
def demoFormats : List Format :=
  [ { acodec := some "none", vcodec := some "avc1", abr := none,
      tbr := some 500, url := some "http://v" },
    { acodec := some "opus", vcodec := some "none", abr := some 128,
      tbr := some 130, url := some "http://a" } ]

lemma keyLeP_refl (a : ℚ × ℚ) : keyLeP a a := Or.inr ⟨rfl, le_refl _⟩

lemma keyLeP_trans {a b c : ℚ × ℚ} (hab : keyLeP a b) (hbc : keyLeP b c) : keyLeP a c := by
  rcases hab with h | ⟨h1, h2⟩ <;> rcases hbc with g | ⟨g1, g2⟩
  · exact Or.inl (lt_trans h g)
  · exact Or.inl (g1 ▸ h)
  · exact Or.inl (h1 ▸ g)
  · exact Or.inr ⟨h1.trans g1, le_trans h2 g2⟩

lemma keyGt_true {a b : ℚ × ℚ} (h : keyGt a b = true) : keyLeP b a := by
  simp only [keyGt, Bool.or_eq_true, Bool.and_eq_true, decide_eq_true_eq] at h
  rcases h with h | ⟨h1, h2⟩
  · exact Or.inl h
  · exact Or.inr ⟨h1.symm, le_of_lt h2⟩

lemma keyGt_false {a b : ℚ × ℚ} (h : keyGt a b = false) : keyLeP a b := by
  rcases lt_trichotomy a.1 b.1 with h1 | h1 | h1
  · exact Or.inl h1
  · refine Or.inr ⟨h1, ?_⟩
    by_contra hlt
    push_neg at hlt
    have : keyGt a b = true := by
      simp only [keyGt, Bool.or_eq_true, Bool.and_eq_true, decide_eq_true_eq]
      exact Or.inr ⟨h1, hlt⟩
    rw [this] at h
    exact absurd h (by simp)
  · have : keyGt a b = true := by
      simp only [keyGt, Bool.or_eq_true, Bool.and_eq_true, decide_eq_true_eq]
      exact Or.inl h1
    rw [this] at h
    exact absurd h (by simp)

lemma pyMaxBy_mem (key : Format → ℚ × ℚ) (b : Format) (l : List Format) :
    pyMaxBy key b l = b ∨ pyMaxBy key b l ∈ l := by
  induction l generalizing b with
  | nil => exact Or.inl rfl
  | cons f rest ih =>
    cases hb : keyGt (key f) (key b) with
    | false =>
      rcases ih b with h | h
      · exact Or.inl (by simpa [pyMaxBy, hb] using h)
      · exact Or.inr (by simp [pyMaxBy, hb, h])
    | true =>
      rcases ih f with h | h
      · refine Or.inr ?_
        simp only [pyMaxBy, hb, if_true, List.mem_cons]
        exact Or.inl h
      · refine Or.inr ?_
        simp only [pyMaxBy, hb, if_true, List.mem_cons]
        exact Or.inr h

lemma pyMaxBy_ge (key : Format → ℚ × ℚ) (b : Format) (l : List Format) :
    keyLeP (key b) (key (pyMaxBy key b l)) ∧
    ∀ f ∈ l, keyLeP (key f) (key (pyMaxBy key b l)) := by
  induction l generalizing b with
  | nil => exact ⟨keyLeP_refl _, by simp⟩
  | cons f rest ih =>
    cases hb : keyGt (key f) (key b) with
    | false =>
      have hfb : keyLeP (key f) (key b) := keyGt_false hb
      have hrec := ih b
      have hres : pyMaxBy key b (f :: rest) = pyMaxBy key b rest := by
        simp [pyMaxBy, hb]
      rw [hres]
      refine ⟨hrec.1, ?_⟩
      intro g hg
      rcases List.mem_cons.mp hg with rfl | hg
      · exact keyLeP_trans hfb hrec.1
      · exact hrec.2 g hg
    | true =>
      have hbf : keyLeP (key b) (key f) := keyGt_true hb
      have hrec := ih f
      have hres : pyMaxBy key b (f :: rest) = pyMaxBy key f rest := by
        simp [pyMaxBy, hb]
      rw [hres]
      refine ⟨keyLeP_trans hbf hrec.1, ?_⟩
      intro g hg
      rcases List.mem_cons.mp hg with rfl | hg
      · exact hrec.1
      · exact hrec.2 g hg

lemma isAudioOnly_hasAudio {f : Format} (h : isAudioOnly f = true) : hasAudio f = true := by
  simp only [isAudioOnly, Bool.and_eq_true] at h
  exact h.1

/-- C1 (amended): `best_audio_stream_url` returns None whenever no
format has an audio codec; and whenever the candidate pool (audio-only
formats, else all formats with an audio codec) is nonempty, it returns
the url field of a pool member whose (abr, tbr) key, missing values
read as 0, is maximal in the pool - which is None when that member
itself lacks a url field, the case the original claim missed. -/
theorem C1_best_audio_stream_url (formats : List Format) :
    (formats.filter hasAudio = [] → best_audio_stream_url formats = none) ∧
    (audioPool formats ≠ [] →
      ∃ f, f ∈ audioPool formats ∧
        (∀ g ∈ audioPool formats, keyLeP (fmtKey g) (fmtKey f)) ∧
        best_audio_stream_url formats = f.url) := by
  constructor
  · intro h
    have h2 : formats.filter isAudioOnly = [] := by
      rw [List.filter_eq_nil_iff] at h ⊢
      exact fun a ha hAO => h a ha (isAudioOnly_hasAudio hAO)
    have hpool : audioPool formats = [] := by
      rw [audioPool, h2]
      simp [h]
    rw [best_audio_stream_url, hpool]
  · intro hpool
    cases hp : audioPool formats with
    | nil => exact absurd hp hpool
    | cons f rest =>
      refine ⟨pyMaxBy fmtKey f rest, ?_, ?_, ?_⟩
      · rcases pyMaxBy_mem fmtKey f rest with h | h
        · rw [h]
          exact List.mem_cons_self f rest
        · exact List.mem_cons_of_mem f h
      · intro g hg
        rcases List.mem_cons.mp hg with rfl | hg
        · exact (pyMaxBy_ge fmtKey g rest).1
        · exact (pyMaxBy_ge fmtKey f rest).2 g hg
      · rw [best_audio_stream_url, hp]

/-- C1 counterexample: a single format with an audio codec but no url
field makes `best_audio_stream_url` return None even though a format
with an audio codec exists, refuting the claimed exact
characterisation of the None result. -/
theorem C1_counterexample :
    hasAudio { acodec := some "opus", vcodec := some "none",
               abr := some 128, tbr := some 128, url := none } = true ∧
    best_audio_stream_url
      [{ acodec := some "opus", vcodec := some "none",
         abr := some 128, tbr := some 128, url := none }] = none := by
  exact ⟨by decide, by decide⟩

/-- C1 witness: on `demoFormats` the amended theorem yields the url of
the unique audio-only format. -/
theorem C1_witness : best_audio_stream_url demoFormats = some "http://a" := by
  obtain ⟨f, hmem, hmax, hurl⟩ :=
    (C1_best_audio_stream_url demoFormats).2 (by decide)
  have hpool : audioPool demoFormats =
      [{ acodec := some "opus", vcodec := some "none", abr := some 128,
         tbr := some 130, url := some "http://a" }] := by decide
  rw [hpool] at hmem
  rcases List.mem_singleton.mp hmem with rfl
  exact hurl

lemma on_download_finished_has_dialog (d : String) (s : Bool) (m : String) :
    (on_download_finished d s m).any isDialog = true := by
  cases s <;> simp [on_download_finished, isDialog]

lemma on_stream_done_has_dialog (ok : Bool) (data : Option String)
    (h : ok = false ∨ pyTruthy data = false) :
    (on_stream_done ok data).any isDialog = true := by
  rcases h with rfl | h
  · simp [on_stream_done, isDialog]
  · cases ok <;> simp [on_stream_done, isDialog, h]

lemma on_stream_done_no_submit (ok : Bool) (data : Option String) :
    (on_stream_done ok data).countP isSubmit = 0 := by
  cases ok <;> rcases h : pyTruthy data <;>
    simp [on_stream_done, isSubmit, h, List.countP_cons]

lemma on_download_finished_no_submit (d : String) (s : Bool) (m : String) :
    (on_download_finished d s m).countP isSubmit = 0 := by
  cases s <;> simp [on_download_finished, isSubmit, List.countP_cons]

lemma flatMap_finished_no_submit (d : String) (l : List (Bool × String)) :
    (l.flatMap fun sm => on_download_finished d sm.1 sm.2).countP isSubmit = 0 := by
  induction l with
  | nil => rfl
  | cons sm rest ih =>
    rw [List.flatMap_cons, List.countP_append, ih, on_download_finished_no_submit]

lemma not_submit_of_countP {l : List UIAction} (h : l.countP isSubmit = 0) :
    ∀ a ∈ l, a ≠ UIAction.submitTask := by
  intro a ha
  have h2 := (List.countP_eq_zero.mp h) a ha
  cases a <;> simp [isSubmit] at h2 ⊢

lemma plStep_indexOk {s : PlaylistState} (h : indexOk s) (op : PlOp) :
    indexOk (plStep s op) := by
  cases op with
  | add t =>
    refine Or.inl ?_
    rcases h with h | ⟨h1, h2⟩
    · simp only [plStep, List.length_append, List.length_cons, List.length_nil]
      omega
    · simp [plStep, h1, h2]
  | next =>
    by_cases hc : s.current + 1 < s.playlist.length
    · exact Or.inl (by simpa [plStep, hc] using hc)
    · simpa [plStep, hc] using h
  | prev =>
    by_cases hc : 0 < s.current
    · rcases h with h | ⟨h1, h2⟩
      · refine Or.inl ?_
        simp only [plStep, hc, if_true]
        omega
      · omega
    · simpa [plStep, hc] using h

lemma hook_bound {p t : ℕ} (hpt : p ≤ t) (ht : t ≠ 0) :
    0 ≤ (p : ℚ) * 100 / (t : ℚ) ∧ (p : ℚ) * 100 / (t : ℚ) ≤ 100 := by
  have ht' : (0 : ℚ) < t := by
    have := Nat.pos_of_ne_zero ht
    exact_mod_cast this
  constructor
  · positivity
  · rw [div_le_iff₀ ht']
    have hc : (p : ℚ) ≤ t := by exact_mod_cast hpt
    linarith

/-- C2 (amended): with a nonempty URL, every enumerated failure except
an exception from the mkdir call in `YTDLPWorker.download` is surfaced
as a modal dialog - a raised extraction call, a missing or empty
stream url, a failed or raising yt-dlp download, a missing dependency
at download time, and a nonzero playback error - and no handler
resubmits work: each flow submits at most one task. -/
theorem C2_failures_surface_dialog (url : String) (hu : pyStrip url ≠ "")
    (extract : Except String (Option String)) (download_dir : String)
    (dl : Except String ℤ) (error : ℤ) (es : String) :
    (streamFailure extract → (on_stream_flow url extract).any isDialog = true) ∧
    (downloadFailure dl →
      (on_download_flow url true download_dir (Except.ok ()) dl).any isDialog = true) ∧
    (on_download_flow url false download_dir (Except.ok ()) dl).any isDialog = true ∧
    (error ≠ 0 → (on_error error es).any isDialog = true) ∧
    (on_stream_flow url extract).countP isSubmit = 1 ∧
    (on_download_flow url true download_dir (Except.ok ()) dl).countP isSubmit = 1 := by
  have hu2 : (pyStrip url == "") = false := by
    rw [beq_eq_false_iff_ne]
    exact hu
  refine ⟨?_, ?_, ?_, ?_, ?_, ?_⟩
  · intro hf
    have hdlg : (on_stream_done (stream_task extract).1 (stream_task extract).2).any
        isDialog = true := by
      rcases hf with ⟨e, rfl⟩ | rfl | rfl
      · exact on_stream_done_has_dialog _ _ (Or.inl rfl)
      · exact on_stream_done_has_dialog _ _ (Or.inr rfl)
      · exact on_stream_done_has_dialog _ _ (Or.inr rfl)
    simp [on_stream_flow, hu2, isDialog, hdlg]
  · intro hf
    rcases dl with e | r
    · simp [on_download_flow, hu2, downloadEmits, on_download_finished, isDialog]
    · have hr : ¬ r = 0 := fun h0 => hf (by rw [h0])
      simp [on_download_flow, hu2, downloadEmits, hr, on_download_finished, isDialog]
  · simp [on_download_flow, hu2, isDialog]
  · intro h
    simp [on_error, h, isDialog]
  · rw [on_stream_flow]
    rw [hu2]
    simp only [Bool.false_eq_true, if_false, List.countP_cons, on_stream_done_no_submit,
      isSubmit]
    rfl
  · rw [on_download_flow]
    rw [hu2]
    simp only [Bool.false_eq_true, Bool.not_true, if_false, List.countP_cons,
      List.countP_append, flatMap_finished_no_submit, isSubmit]
    rfl

/-- C2 counterexample: a download with a nonempty URL and the
dependency installed, in which the mkdir call raises, shows no dialog
at all: the exception propagates into the discarded future and is
silently dropped, refuting that every failure is surfaced. -/
theorem C2_counterexample :
    (on_download_flow "https://y" true "downloads"
        (Except.error "FileExistsError") (Except.ok 0)).any isDialog = false := by
  decide

/-- C2 witness: a raising extraction with a concrete nonempty URL is
surfaced as a dialog. -/
theorem C2_witness :
    (on_stream_flow "https://y" (Except.error "boom")).any isDialog = true :=
  (C2_failures_surface_dialog "https://y" (by decide) (Except.error "boom")
      "downloads" (Except.ok 0) 1 "err").1 (Or.inl ⟨"boom", rfl⟩)

/-- C3 (amended): when the mkdir call does not raise, every call to
`YTDLPWorker.download` emits exactly one finished signal, with the
claimed payloads; when mkdir raises, no finished signal is emitted at
all, the case the original claim missed. -/
theorem C3_download_finished_signals (download_dir : String) (dl : Except String ℤ) :
    (downloadEmits download_dir (Except.ok ()) dl).length = 1 ∧
    (dl = Except.ok 0 →
      downloadEmits download_dir (Except.ok ()) dl = [(true, download_dir)]) ∧
    (∀ r : ℤ, dl = Except.ok r → r ≠ 0 →
      downloadEmits download_dir (Except.ok ()) dl = [(false, "Download failed")]) ∧
    (∀ e, dl = Except.error e →
      downloadEmits download_dir (Except.ok ()) dl = [(false, e)]) := by
  rcases dl with e | r
  · refine ⟨rfl, ?_, ?_, ?_⟩
    · intro h
      exact absurd h (by simp)
    · intro r h
      exact absurd h (by simp)
    · intro e2 h
      rw [Except.error.injEq] at h
      rw [h]
      rfl
  · by_cases hr : r = 0
    · subst hr
      refine ⟨rfl, fun _ => rfl, ?_, ?_⟩
      · intro r2 h hne
        rw [Except.ok.injEq] at h
        exact absurd h.symm hne
      · intro e h
        exact absurd h (by simp)
    · refine ⟨?_, ?_, ?_, ?_⟩
      · simp [downloadEmits, hr]
      · intro h
        rw [Except.ok.injEq] at h
        exact absurd h hr
      · intro r2 h hne
        rw [Except.ok.injEq] at h
        subst h
        simp [downloadEmits, hr]
      · intro e h
        exact absurd h (by simp)

/-- C3 counterexample: when the mkdir call raises, the call emits zero
finished signals, refuting that exactly one is emitted on every
call. -/
theorem C3_counterexample :
    (downloadEmits "downloads" (Except.error "FileExistsError")
        (Except.ok 0)).length = 0 := rfl

/-- C3 witness: a clean run with return code 0 emits the single
success signal carrying the download directory. -/
theorem C3_witness :
    downloadEmits "downloads" (Except.ok ()) (Except.ok 0) = [(true, "downloads")] :=
  (C3_download_finished_signals "downloads" (Except.ok 0)).2.1 rfl

/-- C4: with a nonempty URL (and, for download, the dependency
present), each handler disables the window before submitting the
worker task, performs no enable and no second submission before the
polling loop sees the future complete, and submits nothing after
completion either, so the UI is never enabled while the operation is
in flight. -/
theorem C4_ui_disabled_during_op (url : String) (hu : pyStrip url ≠ "")
    (extract : Except String (Option String)) (download_dir : String)
    (mkdir : Except String Unit) (dl : Except String ℤ) :
    noReenableBeforeDone (on_stream_flow url extract) ∧
    noReenableBeforeDone (on_download_flow url true download_dir mkdir dl) := by
  have hu2 : (pyStrip url == "") = false := by
    rw [beq_eq_false_iff_ne]
    exact hu
  constructor
  · refine ⟨[UIAction.setEnabled false, UIAction.setStatus "Resolving audio stream..."],
      on_stream_done (stream_task extract).1 (stream_task extract).2, ?_, ?_, ?_, ?_⟩
    · simp [on_stream_flow, hu2]
    · simp
    · intro a ha
      fin_cases ha <;> exact ⟨by simp, by simp⟩
    · exact not_submit_of_countP (on_stream_done_no_submit _ _)
  · refine ⟨[UIAction.setProgress 0, UIAction.setStatus "Downloading...",
      UIAction.setEnabled false],
      (downloadEmits download_dir mkdir dl).flatMap
        (fun sm => on_download_finished download_dir sm.1 sm.2) ++
        [UIAction.setEnabled true], ?_, ?_, ?_, ?_⟩
    · simp [on_download_flow, hu2]
    · simp
    · intro a ha
      fin_cases ha <;> exact ⟨by simp, by simp⟩
    · refine not_submit_of_countP ?_
      rw [List.countP_append, flatMap_finished_no_submit]
      rfl

/-- C4 witness: a concrete started stream operation has the required
temporal shape. -/
theorem C4_witness :
    noReenableBeforeDone (on_stream_flow "https://y2" (Except.ok (some "u"))) :=
  (C4_ui_disabled_during_op "https://y2" (by decide) (Except.ok (some "u")) "d"
      (Except.ok ()) (Except.ok 0)).1

/-- C5: the options handed to yt-dlp place the output under the current
download directory with the title-and-extension template, and
post-process the result to the requested audio format with ffmpeg, so
a successful download lands there named from the video title and the
chosen extension. -/
theorem C5_download_output_naming (download_dir audio_format : String) :
    (download_opts download_dir audio_format).outtmpl
        = download_dir ++ "/" ++ "%(title)s.%(ext)s" ∧
    (download_opts download_dir audio_format).postprocessors
        = [{ key := "FFmpegExtractAudio", preferredcodec := audio_format,
             preferredquality := "0" }] ∧
    (download_opts download_dir audio_format).fmtSelector = "bestaudio/best" :=
  ⟨rfl, rfl, rfl⟩

/-- C6: from the empty initial state, every sequence of playlist
operations keeps the current index within the bounds of the playlist
(resting at 0 while the playlist is empty). -/
theorem C6_playlist_index_bounds (ops : List PlOp) : indexOk (plRun ops) := by
  have key : ∀ s, indexOk s → indexOk (ops.foldl plStep s) := by
    induction ops with
    | nil => exact fun s h => h
    | cons op rest ih => exact fun s h => ih _ (plStep_indexOk h op)
  simpa [plRun] using key { playlist := [], current := 0 } (Or.inr ⟨rfl, rfl⟩)

/-- C7: each of the five transport buttons invokes exactly the matching
playback operation: play, pause and stop set the corresponding
playback state and leave the playlist alone, next and prev move the
playlist pointer and leave the playback state alone. -/
theorem C7_transport_wiring (m : PlayerModel) :
    (clickTransport m .play).playback = .playing ∧ (clickTransport m .play).pl = m.pl ∧
    (clickTransport m .pause).playback = .paused ∧ (clickTransport m .pause).pl = m.pl ∧
    (clickTransport m .stop).playback = .stopped ∧ (clickTransport m .stop).pl = m.pl ∧
    (clickTransport m .next).pl = plStep m.pl PlOp.next ∧
    (clickTransport m .next).playback = m.playback ∧
    (clickTransport m .prev).pl = plStep m.pl PlOp.prev ∧
    (clickTransport m .prev).playback = m.playback :=
  ⟨rfl, rfl, rfl, rfl, rfl, rfl, rfl, rfl, rfl, rfl⟩

/-- C8: the application accepts a pasted URL string, an optional
download directory choice (a cancelled chooser changes nothing), and
an optional local audio file (a cancelled chooser changes nothing). -/
theorem C8_input_surface (st : AppInput) (s d f : String) :
    (handleInput st (.pasteURL s)).urlText = s ∧
    (handleInput st (.pickDownloadDir (some d))).download_dir = d ∧
    handleInput st (.pickDownloadDir none) = st ∧
    (handleInput st (.pickLocalFile (some f))).localFile = some f ∧
    handleInput st (.pickLocalFile none) = st :=
  ⟨rfl, rfl, rfl, rfl, rfl⟩

/-- C9: when the stripped URL is empty both handlers perform no action
at all, so the window state - status, progress, enabled flag, player
source, dialogs - is left unchanged. -/
theorem C9_empty_url_no_effect (url : String) (hu : pyStrip url = "")
    (extract : Except String (Option String)) (depOk : Bool) (download_dir : String)
    (mkdir : Except String Unit) (dl : Except String ℤ) (st : WinState) :
    on_stream_flow url extract = [] ∧
    on_download_flow url depOk download_dir mkdir dl = [] ∧
    applyActions st (on_stream_flow url extract) = st ∧
    applyActions st (on_download_flow url depOk download_dir mkdir dl) = st := by
  have hu2 : (pyStrip url == "") = true := by
    rw [beq_iff_eq]
    exact hu
  refine ⟨?_, ?_, ?_, ?_⟩ <;>
    simp [on_stream_flow, on_download_flow, hu2, applyActions]

/-- C9 witness: a whitespace-only URL leaves a concrete window state
untouched. -/
theorem C9_witness :
    applyActions { status := "Ready", progressVal := 0, enabled := true,
                   playerSource := none, dialogs := [] }
        (on_stream_flow "   " (Except.ok none))
      = { status := "Ready", progressVal := 0, enabled := true,
          playerSource := none, dialogs := [] } :=
  (C9_empty_url_no_effect "   " (by decide) (Except.ok none) true "d"
      (Except.ok ()) (Except.ok 0)
      { status := "Ready", progressVal := 0, enabled := true,
        playerSource := none, dialogs := [] }).2.2.1

/-- C10: under the precondition that the downloaded byte count (missing
read as 0) is at most the total (exact, else estimated, missing read
as 0), every emitted progress value lies in the closed interval 0 to
100; the finished status emits exactly 100; a downloading report emits
nothing when no nonzero total is available, and otherwise emits
exactly downloaded times 100 over total. -/
theorem C10_progress_hook (status : String)
    (downloaded_bytes total_bytes total_bytes_estimate : Option ℕ)
    (h : pyOrNat downloaded_bytes 0 ≤ pyOrNat total_bytes (pyOrNat total_bytes_estimate 0)) :
    (∀ q, hook status downloaded_bytes total_bytes total_bytes_estimate = some q →
        0 ≤ q ∧ q ≤ 100) ∧
    hook "finished" downloaded_bytes total_bytes total_bytes_estimate = some 100 ∧
    (pyOrNat total_bytes (pyOrNat total_bytes_estimate 0) = 0 →
      hook "downloading" downloaded_bytes total_bytes total_bytes_estimate = none) ∧
    (∀ q, hook "downloading" downloaded_bytes total_bytes total_bytes_estimate = some q →
        pyOrNat total_bytes (pyOrNat total_bytes_estimate 0) ≠ 0 ∧
        q = (pyOrNat downloaded_bytes 0 : ℚ) * 100
              / (pyOrNat total_bytes (pyOrNat total_bytes_estimate 0) : ℚ)) := by
  refine ⟨?_, ?_, ?_, ?_⟩
  · intro q hq
    by_cases hs : (status == "downloading") = true
    · rw [hook, if_pos hs] at hq
      by_cases htz : pyOrNat total_bytes (pyOrNat total_bytes_estimate 0) = 0
      · rw [if_neg (by simpa using htz)] at hq
        exact absurd hq (by simp)
      · rw [if_pos htz] at hq
        rw [Option.some.injEq] at hq
        rw [hq.symm] at *
        exact hq ▸ hook_bound h htz
    · by_cases hs2 : (status == "finished") = true
      · rw [hook, if_neg (by simpa using hs), if_pos hs2, Option.some.injEq] at hq
        rw [hq.symm]
        norm_num
      · rw [hook, if_neg (by simpa using hs), if_neg (by simpa using hs2)] at hq
        exact absurd hq (by simp)
  · rfl
  · intro htz
    rw [hook]
    rw [if_pos (by rfl)]
    rw [if_neg (by simpa using htz)]
  · intro q hq
    by_cases htz : pyOrNat total_bytes (pyOrNat total_bytes_estimate 0) = 0
    · rw [hook, if_pos (by rfl), if_neg (by simpa using htz)] at hq
      exact absurd hq (by simp)
    · refine ⟨htz, ?_⟩
      rw [hook, if_pos (by rfl), if_pos htz, Option.some.injEq] at hq
      exact hq.symm

/-- C10 witness: 50 of 200 bytes reports 25 percent, inside the
interval. -/
theorem C10_witness :
    hook "downloading" (some 50) (some 200) none = some 25 ∧
    0 ≤ (25 : ℚ) ∧ (25 : ℚ) ≤ 100 := by
  have hcomp : hook "downloading" (some 50) (some 200) none = some 25 := by
    norm_num [hook, pyOrNat]
  exact ⟨hcomp,
    (C10_progress_hook "downloading" (some 50) (some 200) none (by decide)).1 25 hcomp⟩

end MusicPlayer
